import Mathlib

/-!
Shallow embedding of `src/docs/hooks.py` (MkDocs CLI-example validation hook).

Strings are modelled as `List Char`.  Python `str.strip()` / regex `\s` are
modelled over the ASCII whitespace range, which covers every character the
hook's patterns and all inputs considered here can produce.

Subprocess execution is modelled by an oracle mapping the exact shell string
handed to `subprocess.run` to an outcome: either the process completed and
`subprocess.run` returned a `CompletedProcess` (with a return code and the
captured stderr), or it timed out (`subprocess.TimeoutExpired`), or some other
exception was raised while setting the process up.  `subprocess.run` is called
without `check=True`, so a non-zero exit status never raises.
-/

/-- ASCII whitespace, as recognised by Python's `str.strip` and regex `\s`. -/
def pyIsSpace (c : Char) : Bool :=
  c == ' ' || c == '\t' || c == '\n' || c == '\r' || c == '\x0b' || c == '\x0c'

/-- Python `str.lstrip()`. -/
def lstrip (s : List Char) : List Char := s.dropWhile pyIsSpace

/-- Python `str.rstrip()`. -/
def rstrip (s : List Char) : List Char := (s.reverse.dropWhile pyIsSpace).reverse

/-- Python `str.strip()`. -/
def strip (s : List Char) : List Char := rstrip (lstrip s)

/-- Python `str.startswith(p)`. -/
def startswith : List Char → List Char → Bool
  | [], _ => true
  | _ :: _, [] => false
  | p :: ps, c :: cs => p == c && startswith ps cs

/-- Python substring containment `needle in hay`. -/
def containsSub (needle : List Char) : List Char → Bool
  | [] => startswith needle []
  | c :: cs => startswith needle (c :: cs) || containsSub needle cs

/-- Python `str.split('\n')`. -/
def splitNl : List Char → List (List Char)
  | [] => [[]]
  | c :: cs =>
    if c == '\n' then [] :: splitNl cs
    else
      match splitNl cs with
      | [] => [[c]]
      | l :: ls => (c :: l) :: ls

/-- Outcome of one `subprocess.run(...)` call in `validate_cli_block`. -/
inductive ProcOutcome where
  | completed (returncode : Int) (stdout stderr : List Char)
  | timedOut
  | excRaised (msg : List Char)

/-- The shell string spawned in dry-run mode: `f'bash -n -c "{command}"'`. -/
def dryRunLine (command : List Char) : List Char :=
  "bash -n -c \"".data ++ command ++ "\"".data

/-- `validate_cli_block` from `src/docs/hooks.py`, with subprocess behaviour
supplied by `oracle` (keyed on the exact string given to `subprocess.run`). -/
def validate_cli_block (oracle : List Char → ProcOutcome)
    (command : List Char) (dry_run : Bool) : Option (List Char) :=
  if (strip command).isEmpty then none
  else if startswith "#".data (strip command) then none
  else if dry_run then
    if !startswith "arbiter".data (strip command) then none
    else
      match oracle (dryRunLine command) with
      | ProcOutcome.completed _ _ _ => none
      | ProcOutcome.timedOut => some ("Syntax check timed out: ".data ++ command)
      | ProcOutcome.excRaised e =>
          some ("Syntax error: ".data ++ command ++ " - ".data ++ e)
  else
    match oracle command with
    | ProcOutcome.completed rc _ err =>
        if rc != 0 && !containsSub "--help".data command then
          some ("Command failed: ".data ++ command ++ "\nOutput: ".data ++ err)
        else none
    | ProcOutcome.timedOut => some ("Command timed out: ".data ++ command)
    | ProcOutcome.excRaised e =>
        some ("Execution error: ".data ++ command ++ " - ".data ++ e)

/-!
The block-extraction regex of `on_page_markdown`,

  ```(?:bash|shell|console)\s*(?:<!--\s*test\s*-->)?\s*\n(.*?)```

with `re.DOTALL`, embedded as a specialised backtracking matcher that follows
Python's matching order: alternatives left to right, `\s*` greedy (longest
first), the optional comment group tried present first, `(.*?)` lazy
(shortest first), `re.finditer` scanning left to right and resuming after
each match's end.
-/

/-- Match one fence language tag, `(?:bash|shell|console)`; returns the rest. -/
def matchTag (s : List Char) : Option (List Char) :=
  if startswith "bash".data s then some (s.drop 4)
  else if startswith "shell".data s then some (s.drop 5)
  else if startswith "console".data s then some (s.drop 7)
  else none

/-- Match the test-marker comment `<!--\s*test\s*-->`; returns the rest.
Each inner `\s*` is followed by a non-whitespace literal, so greedy matching
here is deterministic. -/
def matchComment (s : List Char) : Option (List Char) :=
  if startswith "<!--".data s then
    let s1 := (s.drop 4).dropWhile pyIsSpace
    if startswith "test".data s1 then
      let s2 := (s1.drop 4).dropWhile pyIsSpace
      if startswith "-->".data s2 then some (s2.drop 3) else none
    else none
  else none

/-- All ways `\s*(?:<!--\s*test\s*-->)?\s*\n` can match at the head of `s`,
as the list of remainders after the consumed `\n`, in Python's backtracking
preference order: first `\s*` longest first, comment present before absent,
second `\s*` longest first. -/
def midSuccesses (s : List Char) : List (List Char) :=
  let m1 := (s.takeWhile pyIsSpace).length
  (List.range (m1 + 1)).flatMap (fun i =>
    let s1 := s.drop (m1 - i)
    let opts := match matchComment s1 with
      | some s2 => [s2, s1]
      | none => [s1]
    opts.flatMap (fun t =>
      let m2 := (t.takeWhile pyIsSpace).length
      (List.range (m2 + 1)).flatMap (fun j =>
        match t.drop (m2 - j) with
        | '\n' :: r => [r]
        | _ => [])))

/-- Index of the first occurrence of a closing fence in `r`, if any. -/
def findFenceIdx : List Char → Option Nat
  | [] => none
  | c :: cs =>
    if startswith "```".data (c :: cs) then some 0
    else (findFenceIdx cs).map (· + 1)

/-- Lazy body: for the first mid-part remainder that still contains a closing
fence, the body is everything up to that fence (shortest match), and matching
resumes after the fence. -/
def findFirstBody : List (List Char) → Option (List Char × List Char)
  | [] => none
  | r :: rs =>
    match findFenceIdx r with
    | some k => some (r.take k, r.drop (k + 3))
    | none => findFirstBody rs

/-- Try to match the whole block pattern at the head of `s`; on success,
return the captured group-1 body and the remainder after the match. -/
def matchAt (s : List Char) : Option (List Char × List Char) :=
  if startswith "```".data s then
    match matchTag (s.drop 3) with
    | some s1 => findFirstBody (midSuccesses s1)
    | none => none
  else none

/-- `re.finditer` scan: try to match at each position, emit the captured body
and resume after the match end, else advance one character.  `fuel` bounds the
recursion; every step strictly shrinks the input, so `fuel = s.length`
suffices. -/
def scanAux : Nat → List Char → List (List Char)
  | 0, _ => []
  | _ + 1, [] => []
  | fuel + 1, c :: cs =>
    match matchAt (c :: cs) with
    | some (body, rest) => body :: scanAux fuel rest
    | none => scanAux fuel cs

/-- All group-1 bodies of the block pattern in `markdown`, in order. -/
def scanBlocks (markdown : List Char) : List (List Char) :=
  scanAux markdown.length markdown

/-- The command-splitting loop of `on_page_markdown`: split the (stripped)
block body on newlines, keep lines that start with `$` (prompt stripped,
remainder stripped) or with `arbiter` (kept as the stripped line). -/
def splitCommands (block : List Char) : List (List Char) :=
  (splitNl block).foldl
    (fun commands rawLine =>
      let line := strip rawLine
      if startswith "$".data line then commands ++ [strip (line.drop 1)]
      else if startswith "arbiter".data line then commands ++ [line]
      else commands)
    []

/-- The two environment variables the hook reads; `none` models an unset
variable, `some v` a variable set to the string `v`. -/
structure Env where
  VALIDATE_CLI_EXAMPLES : Option (List Char)
  VALIDATE_CLI_STRICT : Option (List Char)

/-- Python truthiness of `os.environ.get(name)`: `None` and the empty string
are falsy, every other string is truthy. -/
def truthy : Option (List Char) → Bool
  | none => false
  | some v => !v.isEmpty

/-- `kwargs.get('page', {}).file.src_path if 'page' in kwargs else 'unknown'`:
the page's source path when a page object is supplied, else `'unknown'`. -/
def pageFile : Option (List Char) → List Char
  | some p => p
  | none => "unknown".data

/-- `on_page_markdown` from `src/docs/hooks.py`.  Raising `ValueError(msg)` is
modelled as `Except.error msg`; writing diagnostics to stderr is a side effect
with no bearing on the returned value and is not modelled. -/
def on_page_markdown (env : Env) (oracle : List Char → ProcOutcome)
    (page : Option (List Char)) (markdown : List Char) :
    Except (List Char) (List Char) :=
  if !truthy env.VALIDATE_CLI_EXAMPLES then Except.ok markdown
  else
    let errors := (scanBlocks markdown).foldl
      (fun acc block =>
        (splitCommands (strip block)).foldl
          (fun acc2 command =>
            match validate_cli_block oracle command true with
            | some e => acc2 ++ [e]
            | none => acc2)
          acc)
      []
    if errors.isEmpty then Except.ok markdown
    else if truthy env.VALIDATE_CLI_STRICT then
      Except.error ("CLI validation failed in ".data ++ pageFile page)
    else Except.ok markdown

/-- The errors the hook accumulates for a page, written as a flat map (proved
below to agree with the nested fold in `on_page_markdown`). -/
def collectErrors (oracle : List Char → ProcOutcome) (markdown : List Char) :
    List (List Char) :=
  (scanBlocks markdown).flatMap
    (fun block =>
      (splitCommands (strip block)).filterMap
        (fun c => validate_cli_block oracle c true))

/-- All candidate commands extracted from a page, across all blocks. -/
def allCommands (markdown : List Char) : List (List Char) :=
  (scanBlocks markdown).flatMap (fun block => splitCommands (strip block))

/-- Modelled from the spec: the per-line classification rule as the spec words
it — "classify as a candidate command if it starts with a shell prompt
character (in which case the prompt is stripped) or if it starts with the
literal token `arbiter` (kept verbatim); all other lines are discarded". -/
def claimClassify (rawLine : List Char) : Option (List Char) :=
  let line := strip rawLine
  if startswith "$".data line then some (strip (line.drop 1))
  else if startswith "arbiter".data line then some line
  else none

lemma foldl_validate_inner (oracle : List Char → ProcOutcome) :
    ∀ (cmds : List (List Char)) (acc : List (List Char)),
      cmds.foldl
        (fun acc2 command =>
          match validate_cli_block oracle command true with
          | some e => acc2 ++ [e]
          | none => acc2)
        acc
      = acc ++ cmds.filterMap (fun c => validate_cli_block oracle c true) := by
  intro cmds
  induction cmds with
  | nil => intro acc; simp
  | cons c cs ih =>
    intro acc
    rw [List.foldl_cons, List.filterMap_cons, ih]
    cases h : validate_cli_block oracle c true with
    | none => simp [h]
    | some e => simp [h]

lemma foldl_validate_outer (oracle : List Char → ProcOutcome) :
    ∀ (blocks : List (List Char)) (acc : List (List Char)),
      blocks.foldl
        (fun acc block =>
          (splitCommands (strip block)).foldl
            (fun acc2 command =>
              match validate_cli_block oracle command true with
              | some e => acc2 ++ [e]
              | none => acc2)
            acc)
        acc
      = acc ++ blocks.flatMap
          (fun block =>
            (splitCommands (strip block)).filterMap
              (fun c => validate_cli_block oracle c true)) := by
  intro blocks
  induction blocks with
  | nil => intro acc; simp
  | cons b bs ih =>
    intro acc
    rw [List.foldl_cons, List.flatMap_cons, ih, foldl_validate_inner]
    simp

lemma on_page_markdown_eq (env : Env) (oracle : List Char → ProcOutcome)
    (page : Option (List Char)) (markdown : List Char) :
    on_page_markdown env oracle page markdown =
      if truthy env.VALIDATE_CLI_EXAMPLES then
        if (collectErrors oracle markdown).isEmpty then Except.ok markdown
        else if truthy env.VALIDATE_CLI_STRICT then
          Except.error ("CLI validation failed in ".data ++ pageFile page)
        else Except.ok markdown
      else Except.ok markdown := by
  rw [on_page_markdown, collectErrors]
  cases h : truthy env.VALIDATE_CLI_EXAMPLES with
  | false => simp
  | true => simp [foldl_validate_outer]

lemma startswith_self : ∀ l : List Char, startswith l l = true
  | [] => rfl
  | c :: cs => by
    show (c == c && startswith cs cs) = true
    simp [startswith_self cs]

lemma containsSub_append_self (pre l : List Char) :
    containsSub l (pre ++ l) = true := by
  induction pre with
  | nil =>
    cases l with
    | nil => rfl
    | cons c cs =>
      show (startswith (c :: cs) (c :: cs) || containsSub (c :: cs) cs) = true
      simp [startswith_self]
  | cons a pre ih =>
    show (startswith l (a :: (pre ++ l)) || containsSub l (pre ++ l)) = true
    simp [ih]

lemma arbiter_strip_facts (s : List Char)
    (h : startswith "arbiter".data s = true) :
    s.isEmpty = false ∧ startswith "#".data s = false := by
  cases s with
  | nil => exact absurd h (by decide)
  | cons c cs =>
    have hc : ('a' == c && startswith "rbiter".data cs) = true := h
    have hca : 'a' = c := beq_iff_eq.mp ((Bool.and_eq_true _ _).mp hc).1
    subst hca
    exact ⟨rfl, rfl⟩

lemma startswith_append_drop (p q : List Char) :
    ∀ s, startswith p s = true → startswith q (s.drop p.length) = true →
      startswith (p ++ q) s = true := by
  induction p with
  | nil => intro s _ h2; simpa using h2
  | cons a ps ih =>
    intro s h1 h2
    cases s with
    | nil => exact absurd h1 (by simp [startswith])
    | cons c cs =>
      have h1' := (Bool.and_eq_true _ _).mp h1
      show (a == c && startswith (ps ++ q) cs) = true
      rw [Bool.and_eq_true]
      exact ⟨h1'.1, ih cs h1'.2 h2⟩

lemma matchTag_some (t t' : List Char) (h : matchTag t = some t') :
    startswith "bash".data t = true ∨ startswith "shell".data t = true ∨
      startswith "console".data t = true := by
  rw [matchTag] at h
  split at h
  next hb => exact Or.inl hb
  next =>
    split at h
    next hs => exact Or.inr (Or.inl hs)
    next =>
      split at h
      next hc => exact Or.inr (Or.inr hc)
      next => cases h

lemma matchAt_some_lit (s : List Char) (x : List Char × List Char)
    (h : matchAt s = some x) :
    startswith "```bash".data s = true ∨ startswith "```shell".data s = true ∨
      startswith "```console".data s = true := by
  rw [matchAt] at h
  split at h
  next hf =>
    cases ht : matchTag (s.drop 3) with
    | none => rw [ht] at h; cases h
    | some s1 =>
      have hjoin : ∀ q : List Char, startswith q (s.drop 3) = true →
          startswith ("```".data ++ q) s = true := fun q hq =>
        startswith_append_drop "```".data q s hf hq
      rcases matchTag_some _ _ ht with hb | hb | hb
      · exact Or.inl (hjoin _ hb)
      · exact Or.inr (Or.inl (hjoin _ hb))
      · exact Or.inr (Or.inr (hjoin _ hb))
  next => cases h

lemma containsSub_eq_false_head (n : List Char) (c : Char) (cs : List Char)
    (h : containsSub n (c :: cs) = false) :
    startswith n (c :: cs) = false ∧ containsSub n cs = false := by
  rw [containsSub] at h
  exact ⟨(Bool.or_eq_false_iff.mp h).1, (Bool.or_eq_false_iff.mp h).2⟩

lemma containsSub_eq_false_sw (n : List Char) :
    ∀ s, containsSub n s = false → startswith n s = false
  | [], h => h
  | c :: cs, h => (containsSub_eq_false_head n c cs h).1

lemma scanAux_eq_nil : ∀ (fuel : Nat) (s : List Char),
    containsSub "```bash".data s = false →
    containsSub "```shell".data s = false →
    containsSub "```console".data s = false →
    scanAux fuel s = [] := by
  intro fuel
  induction fuel with
  | zero => intro s _ _ _; rfl
  | succ n ih =>
    intro s h1 h2 h3
    cases s with
    | nil => rfl
    | cons c cs =>
      have hm : matchAt (c :: cs) = none := by
        cases hma : matchAt (c :: cs) with
        | none => rfl
        | some x =>
          rcases matchAt_some_lit _ _ hma with hl | hl | hl
          · rw [containsSub_eq_false_sw _ _ h1] at hl; cases hl
          · rw [containsSub_eq_false_sw _ _ h2] at hl; cases hl
          · rw [containsSub_eq_false_sw _ _ h3] at hl; cases hl
      rw [scanAux, hm]
      exact ih cs (containsSub_eq_false_head _ _ _ h1).2
        (containsSub_eq_false_head _ _ _ h2).2
        (containsSub_eq_false_head _ _ _ h3).2

lemma splitNl_no_newline :
    ∀ line : List Char, '\n' ∉ line → splitNl line = [line] := by
  intro line
  induction line with
  | nil => intro _; rfl
  | cons c cs ih =>
    intro h
    have h1 : ¬ c = '\n' := fun hh => h (by rw [hh]; exact List.mem_cons_self _ _)
    have h2 : '\n' ∉ cs := fun hh => h (List.mem_cons_of_mem c hh)
    have hc : (c == '\n') = false := by
      rw [beq_eq_false_iff_ne]
      exact h1
    rw [splitNl, hc, ih h2]
    rfl

lemma mem_collectErrors (oracle : List Char → ProcOutcome) (markdown c e : List Char)
    (hc : c ∈ allCommands markdown)
    (he : validate_cli_block oracle c true = some e) :
    (collectErrors oracle markdown).isEmpty = false := by
  have hmem : e ∈ collectErrors oracle markdown := by
    rw [collectErrors]
    rw [allCommands] at hc
    rcases List.mem_flatMap.mp hc with ⟨b, hb, hcb⟩
    exact List.mem_flatMap.mpr ⟨b, hb, List.mem_filterMap.mpr ⟨c, hcb, he⟩⟩
  cases hL : collectErrors oracle markdown with
  | nil => rw [hL] at hmem; cases hmem
  | cons a l => rfl

/-- Claim C1: the spec says a command beginning with `arbiter` with unbalanced
quoting fails syntax-check with a syntax-error message referencing the
command.  In the code, the `bash -n` subprocess's non-zero exit status is
never inspected and `subprocess.run` (without `check=True`) raises nothing,
so `validate_cli_block` returns `None`: here, on the unbalanced-quote command
`arbiter run "unbalanced`, whose syntax-check process completes with exit
status 2 and an EOF diagnostic on stderr, no error is reported. -/
theorem c1_unbalanced_quote_not_reported :
    validate_cli_block
      (fun _ => ProcOutcome.completed 2 []
        "bash: -c: line 1: unexpected EOF while looking for matching quote".data)
      "arbiter run \"unbalanced".data true = none := by rfl

/-- Claim C2: in dry-run mode, for a command whose stripped text begins with
`arbiter`, `validate_cli_block` returns `None` precisely when the spawned
syntax-check subprocess completes (whatever its exit status); an error message
arises only from a timeout or from an exception during subprocess setup. -/
theorem c2_dry_run_none_iff_completed (oracle : List Char → ProcOutcome)
    (command : List Char)
    (h : startswith "arbiter".data (strip command) = true) :
    validate_cli_block oracle command true = none ↔
      ∃ rc out err, oracle (dryRunLine command) = ProcOutcome.completed rc out err := by
  obtain ⟨h1, h2⟩ := arbiter_strip_facts _ h
  cases ho : oracle (dryRunLine command) with
  | completed rc out err => simp [validate_cli_block, h1, h2, h, ho]
  | timedOut => simp [validate_cli_block, h1, h2, h, ho]
  | excRaised e => simp [validate_cli_block, h1, h2, h, ho]

/-- Witness for C2 at `command = "arbiter version"` with a subprocess that
completes with exit status 0. -/
theorem c2_witness :
    startswith "arbiter".data (strip "arbiter version".data) = true ∧
    (validate_cli_block (fun _ => ProcOutcome.completed 0 [] [])
        "arbiter version".data true = none ↔
      ∃ rc out err,
        (fun _ => ProcOutcome.completed (0 : Int) ([] : List Char) ([] : List Char))
          (dryRunLine "arbiter version".data) = ProcOutcome.completed rc out err) :=
  ⟨by decide, c2_dry_run_none_iff_completed _ _ (by decide)⟩

/-- Claim C8: in dry-run mode, a command whose stripped text does not start
with `arbiter` yields no error, for every possible subprocess behaviour. -/
theorem c8_non_arbiter_dry_run (oracle : List Char → ProcOutcome)
    (command : List Char)
    (h : startswith "arbiter".data (strip command) = false) :
    validate_cli_block oracle command true = none := by
  simp [validate_cli_block, h, ite_self]

/-- Witness for C8 at `command = "ls -la"` with a subprocess that would time
out if it were consulted. -/
theorem c8_witness :
    startswith "arbiter".data (strip "ls -la".data) = false ∧
    validate_cli_block (fun _ => ProcOutcome.timedOut) "ls -la".data true = none :=
  ⟨by decide, c8_non_arbiter_dry_run _ _ (by decide)⟩

/-- Claim C6: whenever `on_page_markdown` returns normally, the returned
string is exactly the input markdown — the hook never rewrites content. -/
theorem c6_ok_is_input (env : Env) (oracle : List Char → ProcOutcome)
    (page : Option (List Char)) (markdown out : List Char)
    (h : on_page_markdown env oracle page markdown = Except.ok out) :
    out = markdown := by
  rw [on_page_markdown_eq] at h
  split at h
  · split at h
    · injection h with h; exact h.symm
    · split at h
      · cases h
      · injection h with h; exact h.symm
  · injection h with h; exact h.symm

/-- Witness for C6 on a page with a validated, failing block (lenient mode):
the hook still returns the input markdown. -/
theorem c6_witness :
    on_page_markdown ⟨some "1".data, none⟩ (fun _ => ProcOutcome.timedOut) none
        "```bash\narbiter build\n```\n".data
      = Except.ok "```bash\narbiter build\n```\n".data ∧
    ("```bash\narbiter build\n```\n".data : List Char)
      = "```bash\narbiter build\n```\n".data :=
  ⟨by rfl,
    c6_ok_is_input ⟨some "1".data, none⟩ (fun _ => ProcOutcome.timedOut) none
      "```bash\narbiter build\n```\n".data "```bash\narbiter build\n```\n".data
      (by rfl)⟩

/-- Claim C7: for every markdown input containing no fenced code block
labeled `bash`, `shell`, or `console` — that is, on which the block extractor
finds no match — the hook returns the input unchanged and never raises, for
every environment, subprocess behaviour, and page.  (When none of the opening
fences even occurs as a substring, `scanAux_eq_nil` discharges the
hypothesis; the witness below instead exercises an input where `` ```bash ``
does occur but no fenced block exists.) -/
theorem c7_no_fenced_blocks (markdown : List Char) (env : Env)
    (oracle : List Char → ProcOutcome) (page : Option (List Char))
    (h : scanBlocks markdown = []) :
    on_page_markdown env oracle page markdown = Except.ok markdown := by
  rw [on_page_markdown_eq]
  simp [collectErrors, h, ite_self]

/-- Witness for C7, with both toggles present, on a page that mentions
`` ```bash `` inline and even opens a `` ```bash `` fence that is never
closed: it contains no fenced code block, so the hook passes it through. -/
theorem c7_witness :
    scanBlocks "# Title\nsee ```bash inline\n```bash\narbiter oops\n".data = [] ∧
    on_page_markdown ⟨some "1".data, some "1".data⟩ (fun _ => ProcOutcome.timedOut)
        none "# Title\nsee ```bash inline\n```bash\narbiter oops\n".data
      = Except.ok "# Title\nsee ```bash inline\n```bash\narbiter oops\n".data :=
  ⟨by decide,
    c7_no_fenced_blocks "# Title\nsee ```bash inline\n```bash\narbiter oops\n".data
      ⟨some "1".data, some "1".data⟩ (fun _ => ProcOutcome.timedOut) none
      (by decide)⟩

/-- Counterexample to claim C3: both variables are present in the environment
(the enabling one with the empty string as value, the strict one with `"x"`),
the page contains a command that fails syntax-check under the given subprocess
behaviour, yet `on_page_markdown` performs no validation and returns normally
— because `os.environ.get` truthiness treats an empty-string value as unset. -/
theorem c3_counterexample :
    (some ([] : List Char)).isSome = true ∧
    (some "x".data).isSome = true ∧
    validate_cli_block (fun _ => ProcOutcome.timedOut) "arbiter build".data true
      = some "Syntax check timed out: arbiter build".data ∧
    "arbiter build".data ∈ allCommands "```bash\narbiter build\n```\n".data ∧
    on_page_markdown ⟨some [], some "x".data⟩ (fun _ => ProcOutcome.timedOut) none
        "```bash\narbiter build\n```\n".data
      = Except.ok "```bash\narbiter build\n```\n".data :=
  ⟨rfl, rfl, by rfl, by decide, by rfl⟩

/-- Claim C3 (amended): the two environment toggles are Python-truthiness
checks of the variable's value, not presence checks: validation runs iff the
enabling variable is set to a non-empty string, and, when errors accumulate,
the build aborts iff the strict variable is set to a non-empty string — as
captured by this complete characterisation of `on_page_markdown`. -/
theorem c3_amended_truthiness (env : Env) (oracle : List Char → ProcOutcome)
    (page : Option (List Char)) (markdown : List Char) :
    on_page_markdown env oracle page markdown =
      if truthy env.VALIDATE_CLI_EXAMPLES then
        if (collectErrors oracle markdown).isEmpty then Except.ok markdown
        else if truthy env.VALIDATE_CLI_STRICT then
          Except.error ("CLI validation failed in ".data ++ pageFile page)
        else Except.ok markdown
      else Except.ok markdown :=
  on_page_markdown_eq env oracle page markdown

/-- Counterexample to claim C4: both toggles are present (the strict one set
to the empty string), validation runs and a command of the page fails
syntax-check, yet the hook returns normally instead of raising — presence of
the strict variable is not what the code tests. -/
theorem c4_counterexample :
    (some "1".data).isSome = true ∧
    (some ([] : List Char)).isSome = true ∧
    validate_cli_block (fun _ => ProcOutcome.timedOut) "arbiter check".data true
      = some "Syntax check timed out: arbiter check".data ∧
    "arbiter check".data ∈ allCommands "```shell\n$ arbiter check\n```\n".data ∧
    on_page_markdown ⟨some "1".data, some []⟩ (fun _ => ProcOutcome.timedOut)
        (some "docs/guide.md".data) "```shell\n$ arbiter check\n```\n".data
      = Except.ok "```shell\n$ arbiter check\n```\n".data :=
  ⟨rfl, rfl, by rfl, by decide, by rfl⟩

/-- Claim C4 (amended): when the enabling variable is set to a non-empty
string, the strict variable is set to a non-empty string, and some extracted
command of the page fails syntax-check, `on_page_markdown` raises, and the
raised message contains the page identifier (the page's source path, or the
literal `unknown` when no page is supplied). -/
theorem c4_strict_abort (env : Env) (oracle : List Char → ProcOutcome)
    (page : Option (List Char)) (markdown c e : List Char)
    (hE : truthy env.VALIDATE_CLI_EXAMPLES = true)
    (hS : truthy env.VALIDATE_CLI_STRICT = true)
    (hc : c ∈ allCommands markdown)
    (he : validate_cli_block oracle c true = some e) :
    on_page_markdown env oracle page markdown =
      Except.error ("CLI validation failed in ".data ++ pageFile page) ∧
    containsSub (pageFile page)
      ("CLI validation failed in ".data ++ pageFile page) = true := by
  refine ⟨?_, containsSub_append_self _ _⟩
  rw [on_page_markdown_eq, hE, mem_collectErrors oracle markdown c e hc he, hS]
  rfl

/-- Witness for the amended C4 on a concrete page, environment, and failing
command. -/
theorem c4_witness :
    truthy (some "1".data) = true ∧
    truthy (some "y".data) = true ∧
    "arbiter build".data ∈ allCommands "```bash\narbiter build\n```\n".data ∧
    validate_cli_block (fun _ => ProcOutcome.timedOut) "arbiter build".data true
      = some "Syntax check timed out: arbiter build".data ∧
    (on_page_markdown ⟨some "1".data, some "y".data⟩ (fun _ => ProcOutcome.timedOut)
        (some "docs/a.md".data) "```bash\narbiter build\n```\n".data
      = Except.error ("CLI validation failed in ".data ++ pageFile (some "docs/a.md".data)) ∧
     containsSub (pageFile (some "docs/a.md".data))
       ("CLI validation failed in ".data ++ pageFile (some "docs/a.md".data)) = true) :=
  ⟨by decide, by decide, by decide, by rfl,
    c4_strict_abort ⟨some "1".data, some "y".data⟩ (fun _ => ProcOutcome.timedOut)
      (some "docs/a.md".data) "```bash\narbiter build\n```\n".data
      "arbiter build".data "Syntax check timed out: arbiter build".data
      (by decide) (by decide) (by decide) (by rfl)⟩

/-- Claim C5: in execute mode, when the subprocess completes with a non-zero
exit status, a command without the `--help` token yields a failure message
carrying the process's stderr, while a command containing `--help` yields no
error. -/
theorem c5_execute_nonzero (oracle : List Char → ProcOutcome) (command : List Char)
    (rc : Int) (out err : List Char)
    (h1 : (strip command).isEmpty = false)
    (h2 : startswith "#".data (strip command) = false)
    (ho : oracle command = ProcOutcome.completed rc out err)
    (hrc : rc ≠ 0) :
    (containsSub "--help".data command = false →
      validate_cli_block oracle command false =
        some ("Command failed: ".data ++ command ++ "\nOutput: ".data ++ err)) ∧
    (containsSub "--help".data command = true →
      validate_cli_block oracle command false = none) := by
  have hrcb : (rc != 0) = true := by
    simp [bne_iff_ne, hrc]
  constructor <;> intro hc <;> simp [validate_cli_block, h1, h2, ho, hrcb, hc]

/-- Witness for C5 at `command = "arbiter frob"` (no `--help`), exit status 1,
stderr `boom`. -/
theorem c5_witness :
    (strip "arbiter frob".data).isEmpty = false ∧
    startswith "#".data (strip "arbiter frob".data) = false ∧
    containsSub "--help".data "arbiter frob".data = false ∧
    ((containsSub "--help".data "arbiter frob".data = false →
      validate_cli_block (fun _ => ProcOutcome.completed 1 [] "boom".data)
          "arbiter frob".data false =
        some ("Command failed: ".data ++ "arbiter frob".data ++
          "\nOutput: ".data ++ "boom".data)) ∧
     (containsSub "--help".data "arbiter frob".data = true →
      validate_cli_block (fun _ => ProcOutcome.completed 1 [] "boom".data)
          "arbiter frob".data false = none)) :=
  ⟨by decide, by decide, by decide,
    c5_execute_nonzero (fun _ => ProcOutcome.completed 1 [] "boom".data)
      "arbiter frob".data 1 [] "boom".data (by decide) (by decide) (by rfl)
      (by decide)⟩

/-- Claim C9: the command splitter keeps exactly the trimmed lines starting
with the prompt `$` (prompt stripped, remainder trimmed) or with the literal
`arbiter` (kept as the trimmed line), discarding everything else and
preserving source order — the source's accumulating loop equals the
line-by-line classification rule worded by the spec. -/
theorem c9_splitter_charact (block : List Char) :
    splitCommands block = (splitNl block).filterMap claimClassify := by
  rw [splitCommands]
  have key : ∀ (l : List (List Char)) (acc : List (List Char)),
      l.foldl
        (fun commands rawLine =>
          let line := strip rawLine
          if startswith "$".data line then commands ++ [strip (line.drop 1)]
          else if startswith "arbiter".data line then commands ++ [line]
          else commands)
        acc
      = acc ++ l.filterMap claimClassify := by
    intro l
    induction l with
    | nil => intro acc; simp
    | cons x xs ih =>
      intro acc
      rw [List.foldl_cons, ih]
      cases hd : startswith "$".data (strip x) with
      | true => simp [List.filterMap_cons, claimClassify, hd]
      | false =>
        cases ha : startswith "arbiter".data (strip x) with
        | true => simp [List.filterMap_cons, claimClassify, hd, ha]
        | false => simp [List.filterMap_cons, claimClassify, hd, ha]
  rw [key]
  simp

/-- Claim C10: a block line that is just the prompt `$` (possibly surrounded
by whitespace) is turned into the empty command string by the splitter, and
`validate_cli_block` returns `None` on the empty command in both modes, for
every possible subprocess behaviour. -/
theorem c10_prompt_only_line (line : List Char) (hn : '\n' ∉ line)
    (hs : strip line = "$".data) :
    splitCommands line = [[]] ∧
      ∀ (d : Bool) (oracle : List Char → ProcOutcome),
        validate_cli_block oracle [] d = none := by
  refine ⟨?_, fun d oracle => rfl⟩
  rw [splitCommands, splitNl_no_newline line hn]
  simp only [List.foldl_cons, List.foldl_nil, hs]
  decide

/-- Witness for C10 at the line `" $ "`. -/
theorem c10_witness :
    ('\n' ∉ " $ ".data) ∧ strip " $ ".data = "$".data ∧
    (splitCommands " $ ".data = [[]] ∧
      ∀ (d : Bool) (oracle : List Char → ProcOutcome),
        validate_cli_block oracle [] d = none) :=
  ⟨by decide, by decide, c10_prompt_only_line " $ ".data (by decide) (by decide)⟩


